import Mathlib

/-!
Verification development for the daemon wire protocol and the filesystem
event-notification layer of the repository.

The first half embeds `packages/cli/src/DaemonClient.ts`: the per-connection
`data` handler (JSON/payload split, authentication, interrupt path, stray
stdin fragments) and the `writeToStdin` stdin relay.  Bytes are modelled as
`List Nat`, socket reads as a list of byte chunks, and the observable
side effects of one `data` invocation as an explicit `Effects` record.

The second half embeds the event emitter
(`packages/imperative/src/events/src/ImperativeEventEmitter.ts`) and the
path helpers of `packages/imperative/src/events/src/EventUtils.ts`:
emitter state (initialized flag, subscription map, last-seen event times,
open watch handles), the watcher dedup loop, subscribe/unsubscribe, and the
event-file path computations.
-/

namespace DaemonClient

/-- The byte of the character `}` that terminates the JSON portion of a
request (`stringData.indexOf("}" + DaemonRequest.EOW_DELIMITER)`). -/
def BRACE : Nat := 125

/-- Modelled from the spec: `DaemonRequest.EOW_DELIMITER` (defined in the
imperative package, outside these sources) is the reserved single-character
end-of-word delimiter separating the JSON control message from any raw
payload bytes; the handler skips two characters (`}` plus the delimiter)
when extracting the first payload slice.  We fix it as the form-feed byte. -/
def EOW : Nat := 12

/-- `DaemonClient.CTRL_C_CHAR`: the character sent when Ctrl+C is pressed. -/
def CTRL_C_CHAR : String := "\x03"

/-- The recognized fields of a parsed daemon request (`IDaemonResponse` as
consumed by `DaemonClient.data`): `argv`, base64 `user`, optional `stdin`
control string, and optional declared `stdinLength`. -/
structure IDaemonResponse where
  argv : Option (List String)
  user : Option String
  stdin : Option String
  stdinLength : Option Int
deriving Repr, DecidableEq

/-- The content passed to `DaemonRequest.create` on the two rejection
paths: a stderr message and an exit code. -/
structure DResponse where
  stderr : String
  exitCode : Int
deriving Repr, DecidableEq

/-- One write performed on the client socket: either a structured response
built by `DaemonRequest.create`, or a raw string (`"Terminating server"`). -/
inductive ClientWrite where
  | response : DResponse → ClientWrite
  | raw : String → ClientWrite
deriving Repr, DecidableEq

/-- Observable effects of one invocation of the `data` handler:
the socket writes, whether `mClient.end()` ran, whether `mServer.close()`
ran, whether `Imperative.parse` (dispatch) ran, the bytes pushed to
`process.stdin`, and the final `pendingStdinLength` counter. -/
structure Effects where
  written : List ClientWrite
  clientEnded : Bool
  serverClosed : Bool
  dispatched : Bool
  stdinPushed : Option (List Nat)
  pendingAfter : Int
deriving Repr, DecidableEq

/-- Scan for the first occurrence of `}` immediately followed by the
end-of-word delimiter, returning the index of the `}`
(`stringData.indexOf("}" + DaemonRequest.EOW_DELIMITER)`, with `none` for
the `-1` case). -/
def findJsonEnd : List Nat → Option Nat
  | a :: b :: rest =>
    if a = BRACE ∧ b = EOW then some 0
    else (findJsonEnd (b :: rest)).map (· + 1)
  | _ => none

/-- Lines 146-149 of `DaemonClient.data`: split one socket read into the
JSON portion and the optional first payload slice.  When the delimiter pair
is found at index `i`, the JSON is `data.slice(0, i + 1)` and the payload
slice is `data.slice(i + 2)`; otherwise the whole read is the JSON and
`stdinData` is `undefined`. -/
def dataSplit (chunk : List Nat) : List Nat × Option (List Nat) :=
  match findJsonEnd chunk with
  | some i => (chunk.take (i + 1), some (chunk.drop (i + 2)))
  | none => (chunk, none)

/-- The inner `data` listener installed by `writeToStdin` while
`pendingStdinLength > 0`: each arriving chunk is pushed whole to
`process.stdin` and the counter is decremented by its length; once the
counter reaches zero or below the listener is removed and the promise
resolves.  Returns (bytes pushed, final counter, whether the promise
resolved before the reads ran out). -/
def stdinLoop : Int → List (List Nat) → List Nat × Int × Bool
  | pending, [] => ([], pending, false)
  | pending, c :: cs =>
    let p2 := pending - (c.length : Int)
    if p2 ≤ 0 then (c, p2, true)
    else
      let r := stdinLoop p2 cs
      (c ++ r.1, r.2.1, r.2.2)

/-- `DaemonClient.writeToStdin(data, expectedLength)` given the later
continuation reads: push `data`, set the pending counter to
`expectedLength - data.byteLength`, and if it is positive keep consuming
reads until it reaches zero or below.  Returns (all bytes pushed to
`process.stdin`, final pending counter, whether the awaited promise
resolved so that `push(null)` and the caller run). -/
def writeToStdin (data : List Nat) (expectedLength : Int)
    (laterChunks : List (List Nat)) : List Nat × Int × Bool :=
  let pending := expectedLength - (data.length : Int)
  if 0 < pending then
    let r := stdinLoop pending laterChunks
    (data ++ r.1, r.2.1, r.2.2)
  else (data, pending, true)

/-- `writeToStdin` as called on line 192 with `jsonData.stdinLength`, which
may be absent.  An absent length makes `expectedLength - data.byteLength`
evaluate to `NaN` in the source; `NaN > 0` is false, so no continuation
reads are awaited and execution proceeds at once — observably the same as a
counter that takes part in no further `> 0` decision, modelled as `0`. -/
def writeToStdinOpt (data : List Nat) (expectedLength : Option Int)
    (laterChunks : List (List Nat)) : List Nat × Int × Bool :=
  match expectedLength with
  | some l => writeToStdin data l laterChunks
  | none => (data, 0, true)

/-- Lines 151-158 of `DaemonClient.data`: `requestUser` stays undefined
when the `user` field is absent or when decoding throws (the `catch`
branch); otherwise it is the base64-decoded value.  The ambient base64
decoder (`Buffer.from(-, "base64").toString()`) is a parameter. -/
def requestUserOf (decode64 : String → Option String) :
    Option String → Option String
  | none => none
  | some u => decode64 u

/-- The stderr text written when the request carries no usable user. -/
def missingUserMsg : String :=
  "The daemon client did not supply user information or supplied bad information.\n"

/-- The stderr text written when the request user does not match the
daemon owner. -/
def mismatchUserMsg (ru : String) : String :=
  "The user \x27" ++ ru ++ "\x27 cannot use this daemon.\n"

/-- Effects of a rejection path: write a failure response with exit code 1,
end the client connection, dispatch nothing. -/
def rejectEffects (msg : String) (pending : Int) : Effects :=
  { written := [ClientWrite.response { stderr := msg, exitCode := 1 }]
    clientEnded := true
    serverClosed := false
    dispatched := false
    stdinPushed := none
    pendingAfter := pending }

/-- Effects of the silently-ignoring paths: nothing at all happens. -/
def neutralEffects (pending : Int) : Effects :=
  { written := []
    clientEnded := false
    serverClosed := false
    dispatched := false
    stdinPushed := none
    pendingAfter := pending }

/-- Lines 142-199 of `DaemonClient.data`, starting from the parsed request:
the `pendingStdinLength > 0` guard, authentication against the configured
owner, the `stdin` control branch (prompt-reply ignore, Ctrl+C shutdown
guarded by `mServer` being present), and the normal branch that relays any
payload slice through `writeToStdin` and then dispatches. -/
def handleRequest (owner : String) (decode64 : String → Option String)
    (serverPresent : Bool) (pending : Int) (req : IDaemonResponse)
    (stdinData : Option (List Nat)) (laterChunks : List (List Nat)) : Effects :=
  if 0 < pending then neutralEffects pending
  else
    match requestUserOf decode64 req.user with
    | none => rejectEffects missingUserMsg pending
    | some ru =>
      if ru = "" then rejectEffects missingUserMsg pending
      else if ru ≠ owner then rejectEffects (mismatchUserMsg ru) pending
      else
        match req.stdin with
        | some s =>
          if s ≠ CTRL_C_CHAR then neutralEffects pending
          else if serverPresent then
            { written := [ClientWrite.raw "Terminating server"]
              clientEnded := true
              serverClosed := true
              dispatched := false
              stdinPushed := none
              pendingAfter := pending }
          else neutralEffects pending
        | none =>
          match stdinData with
          | some d =>
            let r := writeToStdinOpt d req.stdinLength laterChunks
            { written := []
              clientEnded := false
              serverClosed := false
              dispatched := r.2.2
              stdinPushed := some r.1
              pendingAfter := r.2.1 }
          | none =>
            { written := []
              clientEnded := false
              serverClosed := false
              dispatched := true
              stdinPushed := none
              pendingAfter := pending }

end DaemonClient

namespace Events

/-- Path join for the small fixed layouts used here (`path.join` with two
segments and no trailing separators). -/
def joinPath (a b : String) : String := a ++ "/" ++ b

/-- Modelled from the spec: `ImperativeUserEvents`
(`ImperativeEventConstants.ts`, outside these sources) is the fixed list of
recognized user-scope event names; the spec names `vaultChanged` as the
user-scope example. -/
def ImperativeUserEvents : List String := ["onVaultChanged"]

/-- Modelled from the spec: `ImperativeSharedEvents` is the fixed list of
recognized shared-scope event names; the spec names `configChanged` as the
shared-scope example. -/
def ImperativeSharedEvents : List String := ["onCredentialManagerChanged", "onConfigChanged"]

/-- `ImperativeEventEmitter.isUserEvent`. -/
def isUserEvent (eventType : String) : Bool :=
  ImperativeUserEvents.contains eventType

/-- `ImperativeEventEmitter.isSharedEvent`. -/
def isSharedEvent (eventType : String) : Bool :=
  ImperativeSharedEvents.contains eventType

/-- `ImperativeEventEmitter.isCustomEvent`: neither a user nor a shared
event. -/
def isCustomEvent (eventType : String) : Bool :=
  !isUserEvent eventType && !isSharedEvent eventType

/-- `ImperativeEventEmitter.getSharedEventDir`:
`join(ImperativeConfig.instance.cliHome, ".events")`. -/
def getSharedEventDir (cliHome : String) : String :=
  joinPath cliHome ".events"

/-- `ImperativeEventEmitter.getUserEventDir`:
`join(homedir(), ".zowe", ".events")`. -/
def getUserEventDir (userHome : String) : String :=
  joinPath (joinPath userHome ".zowe") ".events"

/-- `ImperativeEventEmitter.getEventDir`: user events go to the user dir,
everything else (shared events, and the fallthrough for custom names) goes
to the shared dir. -/
def getEventDir (cliHome userHome : String) (eventType : String) : String :=
  if isUserEvent eventType then getUserEventDir userHome
  else getSharedEventDir cliHome

/-- Error classes thrown by the emitter: `progError` is an
`ImperativeError` raised for misuse of the API (use before initialization,
double initialization, emitting through the wrong path) — distinct from
`fsError`, the class wrapping filesystem failures with the offending path
(never produced by this pure model, in which filesystem primitives
succeed). -/
inductive EmErr where
  | progError : String → EmErr
  | fsError : String → EmErr
deriving Repr, DecidableEq

/-- Lookup in a small association list keyed by event name
(`Map.prototype.get`). -/
def mapGet {A : Type} (m : List (String × A)) (k : String) : Option A :=
  match m with
  | [] => none
  | (k2, v) :: rest => if k = k2 then some v else mapGet rest k

/-- `Map.prototype.set`: replace the binding if present, else append. -/
def mapSet {A : Type} (m : List (String × A)) (k : String) (v : A) :
    List (String × A) :=
  match m with
  | [] => [(k, v)]
  | (k2, v2) :: rest =>
    if k = k2 then (k2, v) :: rest else (k2, v2) :: mapSet rest k v

/-- `Map.prototype.delete`: drop the binding for the key (a JS `Map` holds
at most one binding per key, so dropping every list entry with this key is
the same operation on any state reachable through `Map` semantics). -/
def mapDelete {A : Type} (m : List (String × A)) (k : String) :
    List (String × A) :=
  match m with
  | [] => []
  | (k2, v2) :: rest =>
    if k2 = k then mapDelete rest k else (k2, v2) :: mapDelete rest k

/-- State of the process-local `ImperativeEventEmitter` singleton:
the static `initialized` flag, the instance `appName`, the
`subscriptions` map (event name to watch handle id and registered callback
ids), the `eventTimes` map (event name to last delivered timestamp), the
set of still-open `fs.FSWatcher` handles, and a counter for fresh handle
ids. -/
structure EmState where
  initialized : Bool
  appName : Option String
  subscriptions : List (String × Nat × List Nat)
  eventTimes : List (String × String)
  openWatchers : List Nat
  nextWatcherId : Nat
deriving Repr, DecidableEq

/-- `FSWatcher.close()` on handle `w`. -/
def closeWatcher (st : EmState) (w : Nat) : EmState :=
  { st with openWatchers := st.openWatchers.filter (fun x => x ≠ w) }

/-- `ImperativeEventEmitter.initialize(appName, options)` (named
`initEmitter` here because the source name collides with a reserved Lean
token): a second call is a programming error; the first call records the
application name. -/
def initEmitter (st : EmState) (appName : Option String) : Except EmErr EmState :=
  if st.initialized then
    Except.error (EmErr.progError "Only one instance of the Imperative Event Emitter is allowed")
  else
    Except.ok { st with initialized := true, appName := appName }

/-- The message of `ImperativeEventEmitter.ensureClassInitialized`. -/
def initRequiredMsg : String :=
  "You must initialize the instance before using any of its methods."

/-- `ImperativeEventEmitter.setupWatcher`: ensure the directory and event
file exist (always succeeding in this model), open a fresh `fs.watch`
handle on the event file, and store `(watcher, callbacks)` in the
subscription map.  Returns the new state and the handle id. -/
def setupWatcher (st : EmState) (eventType : String) (callbacks : List Nat) :
    EmState × Nat :=
  let w := st.nextWatcherId
  ({ st with
      openWatchers := st.openWatchers ++ [w]
      nextWatcherId := w + 1
      subscriptions := mapSet st.subscriptions eventType (w, callbacks) }, w)

/-- The disposer value returned by `subscribe`: in the source it is the
object `{ close: watcher.close }`, whose invocation closes that watch
handle and nothing else. -/
inductive Disposer where
  | closeWatcher : Nat → Disposer
deriving Repr, DecidableEq

/-- Invoking a disposer returned by `subscribe`. -/
def runDisposer : Disposer → EmState → EmState
  | Disposer.closeWatcher w, st => closeWatcher st w

/-- `ImperativeEventEmitter.subscribe(eventType, callback)`: requires
initialization; if a subscription already exists, close its watcher and
restart it with the callback appended, else start a fresh watcher with the
single callback.  Returns the new state and `{ close: watcher.close }`. -/
def subscribe (st : EmState) (eventType : String) (callback : Nat) :
    Except EmErr (EmState × Disposer) :=
  if !st.initialized then Except.error (EmErr.progError initRequiredMsg)
  else
    match mapGet st.subscriptions eventType with
    | some (w, callbacks) =>
      let st1 := closeWatcher st w
      let r := setupWatcher st1 eventType (callbacks ++ [callback])
      Except.ok (r.1, Disposer.closeWatcher r.2)
    | none =>
      let r := setupWatcher st eventType [callback]
      Except.ok (r.1, Disposer.closeWatcher r.2)

/-- `ImperativeEventEmitter.unsubscribe(eventType)`: requires
initialization; if a subscription exists, close its watcher and delete the
map entry; delete any last-seen timestamp entry. -/
def unsubscribe (st : EmState) (eventType : String) : Except EmErr EmState :=
  if !st.initialized then Except.error (EmErr.progError initRequiredMsg)
  else
    let st1 :=
      match mapGet st.subscriptions eventType with
      | some (w, _cbs) =>
        { closeWatcher st w with
            subscriptions := mapDelete st.subscriptions eventType }
      | none => st
    Except.ok { st1 with eventTimes := mapDelete st1.eventTimes eventType }

/-- `ImperativeEventEmitter.emitEvent(eventType)`: requires
initialization; custom names are a programming error on this path;
otherwise the event is written at `join(getEventDir(eventType), eventType)`
(the returned string is the file path written). -/
def emitEvent (st : EmState) (cliHome userHome : String) (eventType : String) :
    Except EmErr String :=
  if !st.initialized then Except.error (EmErr.progError initRequiredMsg)
  else if isCustomEvent eventType then
    Except.error (EmErr.progError ("Unable to determine the type of event. Event: " ++ eventType))
  else
    Except.ok (joinPath (getEventDir cliHome userHome eventType) eventType)

/-- `ImperativeEventEmitter.emitCustomEvent(eventType)`: requires
initialization; non-custom names are a programming error on this path;
otherwise the event is written at
`join(getSharedEventDir(), eventType)` — note: no appName component. -/
def emitCustomEvent (st : EmState) (cliHome : String) (eventType : String) :
    Except EmErr String :=
  if !st.initialized then Except.error (EmErr.progError initRequiredMsg)
  else if !isCustomEvent eventType then
    Except.error (EmErr.progError ("Operation not allowed. Event is considered protected. Event: " ++ eventType))
  else
    Except.ok (joinPath (getSharedEventDir cliHome) eventType)

/-- State of the watcher callback installed by
`ImperativeEventEmitter.setupWatcher`: the last delivered timestamp for
this event (`eventTimes.get(eventType)`, absent before the first
delivery) and the flat log of callback ids executed so far. -/
structure WatcherState where
  lastTime : Option String
  log : List Nat
deriving Repr, DecidableEq

/-- The event file as observed by a re-read inside the watcher callback:
`none` models a zero-length file (time `""`), `some t` models the JSON
contents whose parsed `time` field is `t`. -/
def currentEventTime : Option String → String
  | none => ""
  | some t => t

/-- One native watch notification (lines 126-137 of
`ImperativeEventEmitter.ts`): re-read the event file, extract its current
timestamp, and only when it differs from the last delivered timestamp run
every registered callback in order and record the new timestamp. -/
def watcherFire (callbacks : List Nat) (fileContents : Option String)
    (st : WatcherState) : WatcherState :=
  let eventTime := currentEventTime fileContents
  if st.lastTime ≠ some eventTime then
    { lastTime := some eventTime, log := st.log ++ callbacks }
  else st

/-- A sequence of native watch notifications, each re-reading the event
file contents current at that moment. -/
def watcherRun (callbacks : List Nat) (st : WatcherState) :
    List (Option String) → WatcherState
  | [] => st
  | fc :: fcs => watcherRun callbacks (watcherFire callbacks fc st) fcs

/-- The event types of `EventConstants.ts` as used by
`EventUtils.getEventDir` (modelled from the spec scopes
User / Shared / Custom(appName), with Custom split into its user and
shared variants as in the source's `CustomUserEvents` /
`CustomSharedEvents`). -/
inductive EventTypes where
  | UserEvents
  | SharedEvents
  | CustomUserEvents
  | CustomSharedEvents
deriving Repr, DecidableEq

/-- `EventUtils.getEventDir(eventType, appName)`: the relative directory
`.events/<appName>` for custom event types, `.events` otherwise. -/
def EventUtils_getEventDir (eventType : EventTypes) (appName : String) : String :=
  if eventType = EventTypes.CustomSharedEvents ∨ eventType = EventTypes.CustomUserEvents then
    joinPath ".events" appName
  else ".events"

/-- The event file path computed by `EventUtils.createSubscription`:
`join(ConfigUtils.getZoweDir(), getEventDir(eventType, appName), eventName)`. -/
def createSubscriptionFilePath (zoweDir appName eventName : String)
    (eventType : EventTypes) : String :=
  joinPath (joinPath zoweDir (EventUtils_getEventDir eventType appName)) eventName

/-- An emitter state right after a successful `initialize("myApp")`, with a
pre-existing last-seen timestamp entry for the event `onMyEvent`. -/
def emAfterInit : EmState :=
  { initialized := true
    appName := some "myApp"
    subscriptions := []
    eventTimes := [("onMyEvent", "t0")]
    openWatchers := []
    nextWatcherId := 0 }

/-- An emitter state on which `initialize` has never been called. -/
def emUninit : EmState :=
  { initialized := false
    appName := none
    subscriptions := []
    eventTimes := []
    openWatchers := []
    nextWatcherId := 0 }

/-- The emitter state reached from `emAfterInit` by subscribing callback
`7` to the event `onMyEvent`. -/
def emSubscribed : EmState :=
  { initialized := true
    appName := some "myApp"
    subscriptions := [("onMyEvent", 0, [7])]
    eventTimes := [("onMyEvent", "t0")]
    openWatchers := [0]
    nextWatcherId := 1 }

end Events

namespace DaemonClient

/-! Helper lemmas about the stdin relay and the JSON/payload split. -/

/-- One step of the inner listener loop, stated as an equation. -/
theorem stdinLoop_cons (pending : Int) (c : List Nat) (cs : List (List Nat)) :
    stdinLoop pending (c :: cs) =
      if pending - (c.length : Int) ≤ 0 then (c, pending - (c.length : Int), true)
      else (c ++ (stdinLoop (pending - (c.length : Int)) cs).1,
            (stdinLoop (pending - (c.length : Int)) cs).2.1,
            (stdinLoop (pending - (c.length : Int)) cs).2.2) := rfl

/-- `writeToStdin` unfolded, stated as an equation. -/
theorem writeToStdin_def (d : List Nat) (e : Int) (cks : List (List Nat)) :
    writeToStdin d e cks =
      if 0 < e - (d.length : Int) then
        (d ++ (stdinLoop (e - (d.length : Int)) cks).1,
         (stdinLoop (e - (d.length : Int)) cks).2.1,
         (stdinLoop (e - (d.length : Int)) cks).2.2)
      else (d, e - (d.length : Int), true) := rfl

/-- When the continuation reads exactly partition the outstanding bytes and
every read is nonempty (a socket read always carries at least one byte),
the inner listener pushes exactly those bytes and stops with the counter at
zero. -/
theorem stdinLoop_exact (chunks : List (List Nat)) (hne : chunks ≠ [])
    (hc : ∀ c ∈ chunks, c ≠ []) :
    stdinLoop ((chunks.flatten.length : Int)) chunks = (chunks.flatten, 0, true) := by
  induction chunks with
  | nil => exact absurd rfl hne
  | cons c cs ih =>
    cases cs with
    | nil =>
      rw [stdinLoop_cons]
      simp [List.flatten_cons]
    | cons c2 cs2 =>
      have hc2 : c2 ≠ [] := hc c2 (by simp)
      have hlen : 0 < (c2 :: cs2).flatten.length := by
        simp only [List.flatten_cons, List.length_append]
        have : c2.length ≠ 0 := fun h => hc2 (List.length_eq_zero.mp h)
        omega
      have hrec := ih (by simp) (fun x hx => hc x (List.mem_cons_of_mem c hx))
      rw [stdinLoop_cons]
      have hp2 : (((c :: c2 :: cs2).flatten.length : Nat) : Int) - (c.length : Int)
          = (((c2 :: cs2).flatten.length : Nat) : Int) := by
        simp only [List.flatten_cons, List.length_append]
        push_cast
        ring
      rw [hp2]
      have hneg : ¬ ((((c2 :: cs2).flatten.length : Nat) : Int) ≤ 0) := by
        omega
      rw [if_neg hneg]
      rw [hrec]
      simp [List.flatten_cons]

/-- `writeToStdin` on an exact partition of the declared payload delivers
exactly the payload bytes, finishes with the counter at zero, and resolves
so that dispatch proceeds. -/
theorem writeToStdin_exact (firstSlice : List Nat) (chunks : List (List Nat))
    (L : Nat) (hL : (firstSlice ++ chunks.flatten).length = L)
    (hc : ∀ c ∈ chunks, c ≠ []) :
    writeToStdin firstSlice (L : Int) chunks = (firstSlice ++ chunks.flatten, 0, true) := by
  have hLsum : L = firstSlice.length + chunks.flatten.length := by
    rw [← hL, List.length_append]
  have hpend : (L : Int) - (firstSlice.length : Int) = ((chunks.flatten.length : Nat) : Int) := by
    rw [hLsum]; push_cast; ring
  rw [writeToStdin_def, hpend]
  cases chunks with
  | nil =>
    simp
  | cons c cs =>
    have hcne : c ≠ [] := hc c (by simp)
    have hflat : 0 < (c :: cs).flatten.length := by
      have : c.length ≠ 0 := fun h => hcne (List.length_eq_zero.mp h)
      simp only [List.flatten_cons, List.length_append]
      omega
    have hpos : (0 : Int) < (((c :: cs).flatten.length : Nat) : Int) := by
      omega
    rw [if_pos hpos]
    rw [stdinLoop_exact (c :: cs) (by simp) hc]

/-- The scan for the first occurrence of `}` followed by the delimiter,
applied to a chunk that is a `}`-terminated JSON text (containing no such
occurrence of its own) followed by the delimiter and the payload slice,
finds exactly the end of that JSON text. -/
theorem findJsonEnd_append (j rest : List Nat) (hne : j ≠ [])
    (hlast : j.getLast? = some BRACE) (hno : findJsonEnd j = none) :
    findJsonEnd (j ++ EOW :: rest) = some (j.length - 1) := by
  induction j with
  | nil => exact absurd rfl hne
  | cons a tail ih =>
    cases tail with
    | nil =>
      have ha : a = BRACE := by
        simpa using hlast
      simp [findJsonEnd, ha]
    | cons b tl =>
      have hcond : ¬ (a = BRACE ∧ b = EOW) := by
        intro hcontra
        simp [findJsonEnd, hcontra] at hno
      have hnotail : findJsonEnd (b :: tl) = none := by
        cases h : findJsonEnd (b :: tl) with
        | none => rfl
        | some v => simp [findJsonEnd, if_neg hcond, h] at hno
      have hlasttail : (b :: tl).getLast? = some BRACE := by
        rw [← List.getLast?_cons_cons]
        exact hlast
      have hrec := ih (by simp) hlasttail hnotail
      simp only [List.cons_append] at hrec ⊢
      simp only [findJsonEnd, if_neg hcond, hrec, Option.map_some']
      congr 1

/-- Claim C1: for every request declaring a stdin length `L` (`0 ≤ L`)
whose payload bytes are split across arbitrarily many socket reads that
exactly partition the `L` payload bytes, the byte sequence pushed to the
dispatcher stdin by the session equals the original `L` payload bytes
exactly — including the case where the first payload slice arrives in the
same read as the JSON request (the hypotheses say the first read is an
ASCII JSON text ending in `}` with no earlier `}`-delimiter pair, followed
by the delimiter and the first payload slice, and that the continuation
reads are nonempty and exactly partition the rest). -/
theorem c1_stdin_exact_reassembly (owner : String)
    (decode64 : String → Option String) (req : IDaemonResponse)
    (jsonBytes payload firstSlice : List Nat) (chunks : List (List Nat))
    (L : Nat)
    (hjne : jsonBytes ≠ [])
    (hascii : ∀ b ∈ jsonBytes, b < 128)
    (hlast : jsonBytes.getLast? = some BRACE)
    (hnopair : findJsonEnd jsonBytes = none)
    (hpart : firstSlice ++ chunks.flatten = payload)
    (hlen : payload.length = L)
    (hchunks : ∀ c ∈ chunks, c ≠ [])
    (hauth : requestUserOf decode64 req.user = some owner)
    (howner : owner ≠ "")
    (hstdinf : req.stdin = none)
    (hslen : req.stdinLength = some (L : Int)) :
    dataSplit (jsonBytes ++ EOW :: firstSlice) = (jsonBytes, some firstSlice)
    ∧ (handleRequest owner decode64 true 0 req (some firstSlice) chunks).stdinPushed
        = some payload
    ∧ (handleRequest owner decode64 true 0 req (some firstSlice) chunks).dispatched = true
    ∧ (handleRequest owner decode64 true 0 req (some firstSlice) chunks).pendingAfter = 0 := by
  have hjlen : 1 ≤ jsonBytes.length := List.length_pos.mpr hjne
  have hfind := findJsonEnd_append jsonBytes firstSlice hjne hlast hnopair
  have hsplit : dataSplit (jsonBytes ++ EOW :: firstSlice) = (jsonBytes, some firstSlice) := by
    have h1 : jsonBytes.length - 1 + 1 = jsonBytes.length := by omega
    have h2 : jsonBytes.length - 1 + 2 = jsonBytes.length + 1 := by omega
    have hstep : dataSplit (jsonBytes ++ EOW :: firstSlice)
        = ((jsonBytes ++ EOW :: firstSlice).take (jsonBytes.length - 1 + 1),
           some ((jsonBytes ++ EOW :: firstSlice).drop (jsonBytes.length - 1 + 2))) := by
      unfold dataSplit
      rw [hfind]
    rw [hstep, h1, h2]
    have hdrop : (jsonBytes ++ EOW :: firstSlice).drop (jsonBytes.length + 1) = firstSlice := by
      rw [← List.drop_drop, List.drop_left]
      rfl
    rw [List.take_left, hdrop]
  have hL2 : (firstSlice ++ chunks.flatten).length = L := by rw [hpart]; exact hlen
  have hwts := writeToStdin_exact firstSlice chunks L hL2 hchunks
  refine ⟨hsplit, ?_, ?_, ?_⟩ <;>
    simp [handleRequest, hauth, howner, hstdinf, hslen, writeToStdinOpt, hwts, hpart]

/-- Witness for claim C1 at a concrete request: JSON `{}`, delimiter, first
payload byte `1` in the same read, then two continuation reads `[2]` and
`[3]`, declared length 3. -/
theorem c1_stdin_exact_reassembly_witness :
    dataSplit ([123, 125] ++ EOW :: [1]) = ([123, 125], some [1])
    ∧ (handleRequest "alice" (fun _ => some "alice") true 0
        { argv := some ["zowe", "--version"], user := some "YWxpY2U=",
          stdin := none, stdinLength := some (3 : Nat) }
        (some [1]) [[2], [3]]).stdinPushed = some [1, 2, 3]
    ∧ (handleRequest "alice" (fun _ => some "alice") true 0
        { argv := some ["zowe", "--version"], user := some "YWxpY2U=",
          stdin := none, stdinLength := some (3 : Nat) }
        (some [1]) [[2], [3]]).dispatched = true
    ∧ (handleRequest "alice" (fun _ => some "alice") true 0
        { argv := some ["zowe", "--version"], user := some "YWxpY2U=",
          stdin := none, stdinLength := some (3 : Nat) }
        (some [1]) [[2], [3]]).pendingAfter = 0 :=
  c1_stdin_exact_reassembly "alice" (fun _ => some "alice")
    { argv := some ["zowe", "--version"], user := some "YWxpY2U=",
      stdin := none, stdinLength := some (3 : Nat) }
    [123, 125] [1, 2, 3] [1] [[2], [3]] 3
    (by decide) (by decide) (by decide) (by decide) (by decide) (by decide)
    (by decide) rfl (by decide) rfl rfl

/-- Claim C10: a continuation read can carry more bytes than the remaining
count: all of its bytes are still pushed (the pending counter goes negative
rather than truncating), so the dispatcher stdin receives more than the
declared `L` bytes.  Concretely: declared length 3, first slice `[10]`,
one continuation read of 3 bytes — 4 bytes are delivered and the counter
ends at `-1`. -/
theorem c10_stdin_overrun :
    writeToStdin [10] 3 [[20, 30, 40]] = ([10, 20, 30, 40], -1, true)
    ∧ 3 < ([10, 20, 30, 40] : List Nat).length := by
  constructor
  · decide
  · decide

/-- Claim C2: every request whose identity is absent, undecodable, empty,
or different from the configured owner is answered with a failure response
(a stderr message and exit code 1), the connection is ended, the server is
left open, and dispatch is never invoked. -/
theorem c2_malformed_identity_rejected (owner : String)
    (decode64 : String → Option String) (serverPresent : Bool) (pending : Int)
    (req : IDaemonResponse) (stdinData : Option (List Nat))
    (laterChunks : List (List Nat))
    (hp : pending ≤ 0)
    (hbad : req.user = none
      ∨ (∃ u, req.user = some u ∧ decode64 u = none)
      ∨ (∃ u, req.user = some u ∧ decode64 u = some "")
      ∨ requestUserOf decode64 req.user ≠ some owner) :
    ∃ msg, msg ≠ ""
      ∧ (handleRequest owner decode64 serverPresent pending req stdinData laterChunks).written
          = [ClientWrite.response { stderr := msg, exitCode := 1 }]
      ∧ (handleRequest owner decode64 serverPresent pending req stdinData laterChunks).clientEnded
          = true
      ∧ (handleRequest owner decode64 serverPresent pending req stdinData laterChunks).serverClosed
          = false
      ∧ (handleRequest owner decode64 serverPresent pending req stdinData laterChunks).dispatched
          = false := by
  have hnp : ¬ (0 < pending) := by omega
  cases hru : requestUserOf decode64 req.user with
  | none =>
    refine ⟨missingUserMsg, by decide, ?_, ?_, ?_, ?_⟩ <;>
      simp [handleRequest, hnp, hru, rejectEffects]
  | some ru =>
    by_cases h1 : ru = ""
    · refine ⟨missingUserMsg, by decide, ?_, ?_, ?_, ?_⟩ <;>
        simp [handleRequest, hnp, hru, h1, rejectEffects]
    · have h2 : ru ≠ owner := by
        rcases hbad with h | ⟨u, hu, hd⟩ | ⟨u, hu, hd⟩ | h
        · rw [h] at hru; simp [requestUserOf] at hru
        · rw [hu] at hru; simp [requestUserOf, hd] at hru
        · rw [hu] at hru
          simp only [requestUserOf] at hru
          rw [hd] at hru
          exact absurd (Option.some.inj hru).symm h1
        · intro he; exact h (by rw [hru, he])
      have hmsg : mismatchUserMsg ru ≠ "" := by
        unfold mismatchUserMsg
        intro hcontra
        have hlenc := congrArg String.length hcontra
        rw [String.length_append, String.length_append] at hlenc
        have ha : ("The user \x27" : String).length = 10 := rfl
        have hb : ("\x27 cannot use this daemon.\n" : String).length = 26 := rfl
        have hz : ("" : String).length = 0 := rfl
        omega
      refine ⟨mismatchUserMsg ru, hmsg, ?_, ?_, ?_, ?_⟩ <;>
        simp [handleRequest, hnp, hru, h1, h2, rejectEffects]

/-- Witness for claim C2 at the concrete malformed variant of an absent
identity field. -/
theorem c2_malformed_identity_rejected_witness :
    ∃ msg, msg ≠ ""
      ∧ (handleRequest "alice" (fun _ => some "alice") true 0
          { argv := some ["zowe"], user := none, stdin := none, stdinLength := none }
          none []).written
          = [ClientWrite.response { stderr := msg, exitCode := 1 }]
      ∧ (handleRequest "alice" (fun _ => some "alice") true 0
          { argv := some ["zowe"], user := none, stdin := none, stdinLength := none }
          none []).clientEnded = true
      ∧ (handleRequest "alice" (fun _ => some "alice") true 0
          { argv := some ["zowe"], user := none, stdin := none, stdinLength := none }
          none []).serverClosed = false
      ∧ (handleRequest "alice" (fun _ => some "alice") true 0
          { argv := some ["zowe"], user := none, stdin := none, stdinLength := none }
          none []).dispatched = false :=
  c2_malformed_identity_rejected "alice" (fun _ => some "alice") true 0
    { argv := some ["zowe"], user := none, stdin := none, stdinLength := none }
    none [] (by decide) (Or.inl rfl)

/-- Claim C4: on a live daemon, an authenticated request whose payload is
the single reserved interrupt character and that carries no argv makes the
session write the termination notice, end the connection, and close the
listening server. -/
theorem c4_interrupt_shuts_down (owner : String)
    (decode64 : String → Option String) (pending : Int) (req : IDaemonResponse)
    (stdinData : Option (List Nat)) (laterChunks : List (List Nat))
    (hp : pending ≤ 0)
    (hauth : requestUserOf decode64 req.user = some owner)
    (howner : owner ≠ "")
    (hstdin : req.stdin = some CTRL_C_CHAR)
    (hargv : req.argv = none) :
    handleRequest owner decode64 true pending req stdinData laterChunks =
      { written := [ClientWrite.raw "Terminating server"]
        clientEnded := true
        serverClosed := true
        dispatched := false
        stdinPushed := none
        pendingAfter := pending } := by
  have hnp : ¬ (0 < pending) := by omega
  simp [handleRequest, hnp, hauth, howner, hstdin]

/-- Witness for claim C4 at a concrete authenticated interrupt request. -/
theorem c4_interrupt_shuts_down_witness :
    handleRequest "alice" (fun _ => some "alice") true 0
      { argv := none, user := some "YWxpY2U=", stdin := some CTRL_C_CHAR,
        stdinLength := none }
      none [] =
      { written := [ClientWrite.raw "Terminating server"]
        clientEnded := true
        serverClosed := true
        dispatched := false
        stdinPushed := none
        pendingAfter := 0 } :=
  c4_interrupt_shuts_down "alice" (fun _ => some "alice") 0
    { argv := none, user := some "YWxpY2U=", stdin := some CTRL_C_CHAR,
      stdinLength := none }
    none [] (by decide) rfl (by decide) rfl rfl

/-- Claim C8: an authenticated request whose stdin field is non-empty, is
not the reserved interrupt character, and lacks a declared length is
silently ignored: nothing is written, nothing closes, dispatch is not
invoked, and the pending-stdin counter is unchanged. -/
theorem c8_stray_stdin_ignored (owner : String)
    (decode64 : String → Option String) (serverPresent : Bool) (pending : Int)
    (req : IDaemonResponse) (stdinData : Option (List Nat))
    (laterChunks : List (List Nat)) (s : String)
    (hp : pending ≤ 0)
    (hauth : requestUserOf decode64 req.user = some owner)
    (howner : owner ≠ "")
    (hstdin : req.stdin = some s)
    (hsne : s ≠ "")
    (hnc : s ≠ CTRL_C_CHAR)
    (hlen : req.stdinLength = none) :
    handleRequest owner decode64 serverPresent pending req stdinData laterChunks =
      { written := []
        clientEnded := false
        serverClosed := false
        dispatched := false
        stdinPushed := none
        pendingAfter := pending } := by
  have hnp : ¬ (0 < pending) := by omega
  simp [handleRequest, hnp, hauth, howner, hstdin, hnc, neutralEffects]

/-- Witness for claim C8 at a concrete stray prompt-reply request. -/
theorem c8_stray_stdin_ignored_witness :
    handleRequest "alice" (fun _ => some "alice") true 0
      { argv := none, user := some "YWxpY2U=", stdin := some "yes\n",
        stdinLength := none }
      none [] =
      { written := []
        clientEnded := false
        serverClosed := false
        dispatched := false
        stdinPushed := none
        pendingAfter := 0 } :=
  c8_stray_stdin_ignored "alice" (fun _ => some "alice") true 0
    { argv := none, user := some "YWxpY2U=", stdin := some "yes\n",
      stdinLength := none }
    none [] "yes\n" (by decide) rfl (by decide) rfl (by decide) (by decide) rfl

/-- Claim C9: the identity check runs before the interrupt path, so an
interrupt request with absent, empty, or mismatched identity is rejected
with exit code 1 and the server keeps listening; conversely the shutdown
path is reachable only from a request whose decoded identity equals the
configured owner and whose stdin is the interrupt character. -/
theorem c9_shutdown_requires_owner (owner : String)
    (decode64 : String → Option String) (pending : Int) (req : IDaemonResponse)
    (stdinData : Option (List Nat)) (laterChunks : List (List Nat))
    (hp : pending ≤ 0) :
    ((requestUserOf decode64 req.user = none
        ∨ requestUserOf decode64 req.user = some ""
        ∨ requestUserOf decode64 req.user ≠ some owner) →
      req.stdin = some CTRL_C_CHAR →
      ∃ msg,
        (handleRequest owner decode64 true pending req stdinData laterChunks).written
          = [ClientWrite.response { stderr := msg, exitCode := 1 }]
        ∧ (handleRequest owner decode64 true pending req stdinData laterChunks).clientEnded
            = true
        ∧ (handleRequest owner decode64 true pending req stdinData laterChunks).serverClosed
            = false
        ∧ (handleRequest owner decode64 true pending req stdinData laterChunks).dispatched
            = false)
    ∧ ((handleRequest owner decode64 true pending req stdinData laterChunks).serverClosed
          = true →
        requestUserOf decode64 req.user = some owner
        ∧ req.stdin = some CTRL_C_CHAR) := by
  have hnp : ¬ (0 < pending) := by omega
  constructor
  · intro hbad _hstdin
    cases hru : requestUserOf decode64 req.user with
    | none =>
      refine ⟨missingUserMsg, ?_, ?_, ?_, ?_⟩ <;>
        simp [handleRequest, hnp, hru, rejectEffects]
    | some ru =>
      by_cases h1 : ru = ""
      · refine ⟨missingUserMsg, ?_, ?_, ?_, ?_⟩ <;>
          simp [handleRequest, hnp, hru, h1, rejectEffects]
      · have h2 : ru ≠ owner := by
          rcases hbad with h | h | h
          · rw [h] at hru; exact absurd hru (by simp)
          · rw [h] at hru; exact absurd (Option.some.inj hru).symm h1
          · intro he; exact h (by rw [hru, he])
        refine ⟨mismatchUserMsg ru, ?_, ?_, ?_, ?_⟩ <;>
          simp [handleRequest, hnp, hru, h1, h2, rejectEffects]
  · intro hclosed
    cases hru : requestUserOf decode64 req.user with
    | none =>
      exfalso
      simp [handleRequest, hnp, hru, rejectEffects] at hclosed
    | some ru =>
      by_cases h1 : ru = ""
      · exfalso
        simp [handleRequest, hnp, hru, h1, rejectEffects] at hclosed
      · by_cases h2 : ru = owner
        · have howner : owner ≠ "" := by rw [← h2]; exact h1
          cases hstdin : req.stdin with
          | none =>
            exfalso
            cases stdinData <;>
              simp [handleRequest, hnp, hru, h1, h2, howner, hstdin] at hclosed
          | some s =>
            by_cases h3 : s = CTRL_C_CHAR
            · exact ⟨by rw [h2], by rw [h3]⟩
            · exfalso
              simp [handleRequest, hnp, hru, h1, h2, howner, hstdin, h3,
                neutralEffects] at hclosed
        · exfalso
          simp [handleRequest, hnp, hru, h1, h2, rejectEffects] at hclosed

/-- Witness for claim C9 at a concrete mismatched-identity interrupt
request (first part) and at the shutdown effects of a concrete owner
interrupt request (second part, discharged vacuously by evaluation through
the first component of the same application). -/
theorem c9_shutdown_requires_owner_witness :
    ((requestUserOf (fun _ => some "mallory")
        ({ argv := none, user := some "bWFsbG9yeQ==", stdin := some CTRL_C_CHAR,
           stdinLength := none } : IDaemonResponse).user = none
      ∨ requestUserOf (fun _ => some "mallory")
          ({ argv := none, user := some "bWFsbG9yeQ==", stdin := some CTRL_C_CHAR,
             stdinLength := none } : IDaemonResponse).user = some ""
      ∨ requestUserOf (fun _ => some "mallory")
          ({ argv := none, user := some "bWFsbG9yeQ==", stdin := some CTRL_C_CHAR,
             stdinLength := none } : IDaemonResponse).user ≠ some "alice") →
      ({ argv := none, user := some "bWFsbG9yeQ==", stdin := some CTRL_C_CHAR,
         stdinLength := none } : IDaemonResponse).stdin = some CTRL_C_CHAR →
      ∃ msg,
        (handleRequest "alice" (fun _ => some "mallory") true 0
          { argv := none, user := some "bWFsbG9yeQ==", stdin := some CTRL_C_CHAR,
            stdinLength := none } none []).written
          = [ClientWrite.response { stderr := msg, exitCode := 1 }]
        ∧ (handleRequest "alice" (fun _ => some "mallory") true 0
            { argv := none, user := some "bWFsbG9yeQ==", stdin := some CTRL_C_CHAR,
              stdinLength := none } none []).clientEnded = true
        ∧ (handleRequest "alice" (fun _ => some "mallory") true 0
            { argv := none, user := some "bWFsbG9yeQ==", stdin := some CTRL_C_CHAR,
              stdinLength := none } none []).serverClosed = false
        ∧ (handleRequest "alice" (fun _ => some "mallory") true 0
            { argv := none, user := some "bWFsbG9yeQ==", stdin := some CTRL_C_CHAR,
              stdinLength := none } none []).dispatched = false)
    ∧ ((handleRequest "alice" (fun _ => some "mallory") true 0
          { argv := none, user := some "bWFsbG9yeQ==", stdin := some CTRL_C_CHAR,
            stdinLength := none } none []).serverClosed = true →
        requestUserOf (fun _ => some "mallory")
          ({ argv := none, user := some "bWFsbG9yeQ==", stdin := some CTRL_C_CHAR,
             stdinLength := none } : IDaemonResponse).user = some "alice"
        ∧ ({ argv := none, user := some "bWFsbG9yeQ==", stdin := some CTRL_C_CHAR,
             stdinLength := none } : IDaemonResponse).stdin = some CTRL_C_CHAR) :=
  c9_shutdown_requires_owner "alice" (fun _ => some "mallory") 0
    { argv := none, user := some "bWFsbG9yeQ==", stdin := some CTRL_C_CHAR,
      stdinLength := none }
    none [] (by decide)

end DaemonClient

namespace Events

/-! Helper lemmas about the emitter model. -/

/-- Deleting a key removes its binding. -/
theorem mapGet_mapDelete {A : Type} (m : List (String × A)) (k : String) :
    mapGet (mapDelete m k) k = none := by
  induction m with
  | nil => rfl
  | cons p rest ih =>
    obtain ⟨k2, v2⟩ := p
    by_cases h : k2 = k
    · simpa [mapDelete, h] using ih
    · have h2 : ¬ k = k2 := fun hc => h hc.symm
      simpa [mapDelete, mapGet, h, h2] using ih

/-- Native notifications that find an unchanged file timestamp leave the
watcher state untouched. -/
theorem watcherRun_stable (callbacks : List Nat) (st : WatcherState)
    (fc : Option String) (n : Nat)
    (h : st.lastTime = some (currentEventTime fc)) :
    watcherRun callbacks st (List.replicate n fc) = st := by
  induction n with
  | zero => rfl
  | succ m ih =>
    rw [List.replicate_succ]
    show watcherRun callbacks (watcherFire callbacks fc st) (List.replicate m fc) = st
    have hfire : watcherFire callbacks fc st = st := by
      simp [watcherFire, h]
    rw [hfire]
    exact ih

/-- Claim C3: on each native fire the watcher re-reads the event file's
current timestamp and invokes the registered callbacks (in registration
order, recording the delivered timestamp) only if it differs from the last
delivered one; hence over any run of `n ≥ 1` redundant native
notifications that all observe the same file timestamp, the callback set is
appended to the log exactly once when the timestamp is new, and not at all
when it was already delivered. -/
theorem c3_watcher_dedup (callbacks : List Nat) (st : WatcherState)
    (fc : Option String) (n : Nat) (hn : 1 ≤ n) :
    (st.lastTime ≠ some (currentEventTime fc) →
      watcherRun callbacks st (List.replicate n fc)
        = { lastTime := some (currentEventTime fc), log := st.log ++ callbacks })
    ∧ (st.lastTime = some (currentEventTime fc) →
      watcherRun callbacks st (List.replicate n fc) = st) := by
  obtain ⟨m, rfl⟩ : ∃ m, n = m + 1 := ⟨n - 1, by omega⟩
  constructor
  · intro hne
    rw [List.replicate_succ]
    show watcherRun callbacks (watcherFire callbacks fc st) (List.replicate m fc) = _
    have hfire : watcherFire callbacks fc st
        = { lastTime := some (currentEventTime fc), log := st.log ++ callbacks } := by
      simp [watcherFire, hne]
    rw [hfire]
    exact watcherRun_stable callbacks _ fc m rfl
  · intro heq
    exact watcherRun_stable callbacks st fc (m + 1) heq

/-- Witness for claim C3: three redundant native notifications for one
fresh emission deliver the two registered callbacks exactly once, in
registration order. -/
theorem c3_watcher_dedup_witness :
    (({ lastTime := none, log := [] } : WatcherState).lastTime
        ≠ some (currentEventTime (some "2024-04-01T00:00:00Z")) →
      watcherRun [1, 2] { lastTime := none, log := [] }
          (List.replicate 3 (some "2024-04-01T00:00:00Z"))
        = { lastTime := some (currentEventTime (some "2024-04-01T00:00:00Z")),
            log := ([] : List Nat) ++ [1, 2] })
    ∧ (({ lastTime := none, log := [] } : WatcherState).lastTime
        = some (currentEventTime (some "2024-04-01T00:00:00Z")) →
      watcherRun [1, 2] { lastTime := none, log := [] }
          (List.replicate 3 (some "2024-04-01T00:00:00Z"))
        = { lastTime := none, log := [] }) :=
  c3_watcher_dedup [1, 2] { lastTime := none, log := [] }
    (some "2024-04-01T00:00:00Z") 3 (by decide)

/-- Claim C6: calling `initialize` a second time raises a programming
error, and calling `subscribe`, `unsubscribe`, or either emit method
before `initialize` raises a programming error — in each case immediately
(no state change, no filesystem effect) and with the `progError` class,
distinct from the `fsError` class used for runtime filesystem failures. -/
theorem c6_lifecycle_programming_errors (st : EmState) (a : Option String)
    (e : String) (cb : Nat) (cliHome userHome : String) :
    (st.initialized = true →
      initEmitter st a = Except.error (EmErr.progError
        "Only one instance of the Imperative Event Emitter is allowed"))
    ∧ (st.initialized = false →
      subscribe st e cb = Except.error (EmErr.progError initRequiredMsg)
      ∧ unsubscribe st e = Except.error (EmErr.progError initRequiredMsg)
      ∧ emitEvent st cliHome userHome e = Except.error (EmErr.progError initRequiredMsg)
      ∧ emitCustomEvent st cliHome e = Except.error (EmErr.progError initRequiredMsg)) := by
  constructor
  · intro h
    simp [initEmitter, h]
  · intro h
    refine ⟨?_, ?_, ?_, ?_⟩ <;>
      simp [subscribe, unsubscribe, emitEvent, emitCustomEvent, h]

/-- Witness for claim C6: a second `initialize` on an initialized state and
each pre-initialization call on a fresh state. -/
theorem c6_lifecycle_programming_errors_witness :
    (initEmitter emAfterInit none = Except.error (EmErr.progError
        "Only one instance of the Imperative Event Emitter is allowed"))
    ∧ (subscribe emUninit "onMyEvent" 0 = Except.error (EmErr.progError initRequiredMsg)
       ∧ unsubscribe emUninit "onMyEvent" = Except.error (EmErr.progError initRequiredMsg)
       ∧ emitEvent emUninit "/zowe" "/home/user" "onMyEvent"
           = Except.error (EmErr.progError initRequiredMsg)
       ∧ emitCustomEvent emUninit "/zowe" "onMyEvent"
           = Except.error (EmErr.progError initRequiredMsg)) :=
  ⟨(c6_lifecycle_programming_errors emAfterInit none "onMyEvent" 0 "/zowe" "/home/user").1 rfl,
   (c6_lifecycle_programming_errors emUninit none "onMyEvent" 0 "/zowe" "/home/user").2 rfl⟩

/-- Counterexample to claim C5: invoking the disposer returned by
`subscribe` (the object `{ close: watcher.close }`) does not fully remove
the subscription — after running it, the subscription map entry and the
last-seen timestamp entry for the event are both still present. -/
theorem c5_disposer_counterexample :
    ∃ st1 d, subscribe emAfterInit "onMyEvent" 7 = Except.ok (st1, d)
      ∧ mapGet (runDisposer d st1).subscriptions "onMyEvent" = some (0, [7])
      ∧ mapGet (runDisposer d st1).eventTimes "onMyEvent" = some "t0" := by
  refine ⟨_, _, rfl, ?_, ?_⟩ <;> rfl

/-- Claim C5 (amended): the disposer returned by `subscribe` only closes
the filesystem watch handle it refers to; the subscription map entry and
the last-seen timestamp are left in place, and it is `unsubscribe` that
performs the full removal (closing the watch and deleting both map
entries). -/
theorem c5_disposer_closes_watch_only (st : EmState) (e : String) (cb : Nat)
    (st1 : EmState) (d : Disposer)
    (h : subscribe st e cb = Except.ok (st1, d)) :
    (runDisposer d st1).subscriptions = st1.subscriptions
    ∧ (runDisposer d st1).eventTimes = st1.eventTimes
    ∧ (∃ w, d = Disposer.closeWatcher w
        ∧ (runDisposer d st1).openWatchers = st1.openWatchers.filter (fun x => x ≠ w))
    ∧ (∀ st2, unsubscribe st1 e = Except.ok st2 →
        mapGet st2.subscriptions e = none ∧ mapGet st2.eventTimes e = none) := by
  obtain ⟨w⟩ := d
  refine ⟨rfl, rfl, ⟨w, rfl, rfl⟩, ?_⟩
  intro st2 h2
  by_cases hi : st1.initialized = true
  · cases hsub : mapGet st1.subscriptions e with
    | none =>
      simp [unsubscribe, hi, hsub] at h2
      subst h2
      exact ⟨hsub, mapGet_mapDelete _ _⟩
    | some p =>
      obtain ⟨w2, cbs⟩ := p
      simp [unsubscribe, hi, hsub] at h2
      subst h2
      exact ⟨mapGet_mapDelete _ _, mapGet_mapDelete _ _⟩
  · simp [unsubscribe, hi] at h2

/-- Witness for the amended claim C5 at a concrete subscription. -/
theorem c5_disposer_closes_watch_only_witness :
    (runDisposer (Disposer.closeWatcher 0) emSubscribed).subscriptions
      = emSubscribed.subscriptions
    ∧ (runDisposer (Disposer.closeWatcher 0) emSubscribed).eventTimes
      = emSubscribed.eventTimes
    ∧ (∃ w, Disposer.closeWatcher 0 = Disposer.closeWatcher w
        ∧ (runDisposer (Disposer.closeWatcher 0) emSubscribed).openWatchers
          = emSubscribed.openWatchers.filter (fun x => x ≠ w))
    ∧ (∀ st2, unsubscribe emSubscribed "onMyEvent" = Except.ok st2 →
        mapGet st2.subscriptions "onMyEvent" = none
        ∧ mapGet st2.eventTimes "onMyEvent" = none) :=
  c5_disposer_closes_watch_only emAfterInit "onMyEvent" 7 emSubscribed
    (Disposer.closeWatcher 0) rfl

/-- Counterexample to claim C7: with `appName = "myApp"` configured,
emitting the custom event `myCustomEvent` through
`ImperativeEventEmitter.emitCustomEvent` writes the event file directly
under the shared `.events` root, not under an `appName` subdirectory. -/
theorem c7_custom_emit_counterexample :
    emitCustomEvent emAfterInit "/zowe" "myCustomEvent"
      = Except.ok "/zowe/.events/myCustomEvent"
    ∧ "/zowe/.events/myCustomEvent"
      ≠ joinPath (joinPath (joinPath "/zowe" ".events") "myApp") "myCustomEvent" := by
  constructor
  · rfl
  · decide

/-- Claim C7 (amended): the subscription-side layout of
`EventUtils.createSubscription` places Custom-scope event files at
`<zoweDir>/.events/<appName>/<eventName>` and User/Shared event files at
`<zoweDir>/.events/<eventName>`; `ImperativeEventEmitter.emitCustomEvent`,
however, writes Custom events at `<sharedRoot>/.events/<eventName>` with no
appName subdirectory. -/
theorem c7_event_file_layout (zoweDir appName eventName cliHome : String) :
    createSubscriptionFilePath zoweDir appName eventName EventTypes.CustomSharedEvents
      = joinPath (joinPath (joinPath zoweDir ".events") appName) eventName
    ∧ createSubscriptionFilePath zoweDir appName eventName EventTypes.CustomUserEvents
      = joinPath (joinPath (joinPath zoweDir ".events") appName) eventName
    ∧ createSubscriptionFilePath zoweDir appName eventName EventTypes.UserEvents
      = joinPath (joinPath zoweDir ".events") eventName
    ∧ createSubscriptionFilePath zoweDir appName eventName EventTypes.SharedEvents
      = joinPath (joinPath zoweDir ".events") eventName
    ∧ (∀ st : EmState, st.initialized = true → isCustomEvent eventName = true →
        emitCustomEvent st cliHome eventName
          = Except.ok (joinPath (joinPath cliHome ".events") eventName)) := by
  have hfold : ∀ x : String, ("/" : String) ++ (".events/" ++ x) = "/.events/" ++ x := by
    intro x
    rw [← String.append_assoc]
    have hlit : ("/" : String) ++ ".events/" = "/.events/" := rfl
    rw [hlit]
  refine ⟨?_, ?_, ?_, ?_, ?_⟩
  · simp [createSubscriptionFilePath, EventUtils_getEventDir, joinPath, String.append_assoc,
      hfold]
  · simp [createSubscriptionFilePath, EventUtils_getEventDir, joinPath, String.append_assoc,
      hfold]
  · simp [createSubscriptionFilePath, EventUtils_getEventDir, joinPath]
  · simp [createSubscriptionFilePath, EventUtils_getEventDir, joinPath]
  · intro st hi hc
    simp [emitCustomEvent, hi, hc, getSharedEventDir]

/-- Witness for the amended claim C7 at concrete paths and a concrete
custom emission. -/
theorem c7_event_file_layout_witness :
    createSubscriptionFilePath "/zowe" "myApp" "myCustomEvent" EventTypes.CustomSharedEvents
      = joinPath (joinPath (joinPath "/zowe" ".events") "myApp") "myCustomEvent"
    ∧ createSubscriptionFilePath "/zowe" "myApp" "myCustomEvent" EventTypes.CustomUserEvents
      = joinPath (joinPath (joinPath "/zowe" ".events") "myApp") "myCustomEvent"
    ∧ createSubscriptionFilePath "/zowe" "myApp" "myCustomEvent" EventTypes.UserEvents
      = joinPath (joinPath "/zowe" ".events") "myCustomEvent"
    ∧ createSubscriptionFilePath "/zowe" "myApp" "myCustomEvent" EventTypes.SharedEvents
      = joinPath (joinPath "/zowe" ".events") "myCustomEvent"
    ∧ (∀ st : EmState, st.initialized = true → isCustomEvent "myCustomEvent" = true →
        emitCustomEvent st "/zowe" "myCustomEvent"
          = Except.ok (joinPath (joinPath "/zowe" ".events") "myCustomEvent")) :=
  c7_event_file_layout "/zowe" "myApp" "myCustomEvent" "/zowe"

end Events
